import Mathlib

/-!
Shallow embedding of the conversational todo backend's agent/tool subsystem:
the five MCP tools (src/mcp/tools.py), the tool executor (src/mcp/server.py),
the post-LLM tool-dispatch loop and reply synthesis of the orchestrator
(src/agents/todo_orchestrator.py), and the query agent's client-side search
(src/agents/task_query.py).

Modelling conventions:
* the persistent store is a list of task rows plus the autoincrement counter;
* timestamps are natural numbers; `datetime.utcnow()` is an explicit `now`
  argument;
* each tool body runs inside `try/except Exception` and one scoped session;
  an exception raised by the storage layer is modelled by a `fault` oracle
  argument (`some e` = the session raises with text `e`; the transaction is
  then never committed, so the store is unchanged), matching the tools'
  `except` branches;
* the executor's own `try/except` (src/mcp/server.py lines 42-53) catches
  what escapes the tool bodies, namely Python `TypeError`s from binding
  `**kwargs` to a tool's parameters (missing required argument, unexpected
  keyword); binding is modelled explicitly and its failure carried in
  `Except`;
* Python dicts with optional keys are structures with `Option` fields, and
  `dict.get(k, d)` is `Option.getD`.
-/

namespace TodoApp

/-- A row of the `task` table (src/models/task.py, class `Task`).
SQLModel table models skip pydantic field validation at runtime, so `title`
here is an arbitrary string: the `min_length=1, max_length=255` declaration
on `TaskBase` is not enforced when tools construct or mutate rows. -/
structure Task where
  id : Nat
  user_id : String
  title : String
  status : String
  created_at : Nat
  completed_at : Option Nat
  updated_at : Nat
deriving DecidableEq

/-- The `{id, title, status}` summary shape that `list_tasks` returns
(src/mcp/tools.py lines 78-84). -/
structure TaskSummary where
  id : Nat
  title : String
  status : String
deriving DecidableEq

/-- The uniform result envelope every tool returns. Python dicts carry only
some of these keys, so all but `success` are `Option` fields; a missing key is
`none`. -/
structure ToolResult where
  success : Bool
  message : Option String := none
  task_id : Option Nat := none
  tasks : Option (List TaskSummary) := none
  count : Option Nat := none
deriving DecidableEq

/-- The persistent store: the task table plus the primary-key autoincrement
counter that assigns `task.id` on insert. -/
structure DB where
  tasks : List Task
  nextId : Nat
deriving DecidableEq

/-- Replace the first element satisfying `p` by its image under `f`
(models an in-place ORM mutation of the row found by primary key). -/
def updateFirst (p : Task → Bool) (f : Task → Task) : List Task → List Task
  | [] => []
  | t :: ts => if p t then f t :: ts else t :: updateFirst p f ts

/-- Remove the first element satisfying `p` (models `session.delete` of the
row found by primary key). -/
def removeFirst (p : Task → Bool) : List Task → List Task
  | [] => []
  | t :: ts => if p t then ts else t :: removeFirst p ts

/-- src/mcp/tools.py lines 13-48 (`add_task`): insert a new pending task for
`user_id` with the given title, stored as given (no validation on the table
model), and report success with the fresh id. -/
def add_task (user_id title : String) (now : Nat) (fault : Option String)
    (db : DB) : ToolResult × DB :=
  match fault with
  | some e => ({ success := false, message := some ("Error adding task: " ++ e) }, db)
  | none =>
    let t : Task :=
      { id := db.nextId, user_id := user_id, title := title, status := "pending",
        created_at := now, completed_at := none, updated_at := now }
    ({ success := true, task_id := some t.id,
       message := some ("Successfully added task '" ++ title ++ "'") },
     { tasks := db.tasks ++ [t], nextId := db.nextId + 1 })

/-- The status clause of the `list_tasks` query (src/mcp/tools.py lines
66-72): an extra `where` only for the filters "pending" and "completed". -/
def statusOk (status_filter : String) (t : Task) : Bool :=
  if status_filter == "pending" then t.status == "pending"
  else if status_filter == "completed" then t.status == "completed"
  else true

/-- src/mcp/tools.py lines 51-95 (`list_tasks`): the user's tasks, optionally
filtered by status, formatted as summaries. A success carries no `message`
key. -/
def list_tasks (user_id status_filter : String) (fault : Option String)
    (db : DB) : ToolResult × DB :=
  match fault with
  | some e => ({ success := false, message := some ("Error listing tasks: " ++ e) }, db)
  | none =>
    let formatted := (db.tasks.filter
        (fun t => t.user_id == user_id && statusOk status_filter t)).map
      (fun t => TaskSummary.mk t.id t.title t.status)
    ({ success := true, tasks := some formatted, count := some formatted.length }, db)

/-- src/mcp/tools.py lines 98-144 (`complete_task`): look the task up by
primary key; not found and not owned are distinct failure messages; otherwise
set `status` and `completed_at` unconditionally. -/
def complete_task (user_id : String) (task_id : Nat) (now : Nat)
    (fault : Option String) (db : DB) : ToolResult × DB :=
  match fault with
  | some e => ({ success := false, message := some ("Error completing task: " ++ e) }, db)
  | none =>
    match db.tasks.find? (fun t => t.id == task_id) with
    | none =>
      ({ success := false,
         message := some ("Task with ID " ++ toString task_id ++ " not found") }, db)
    | some t =>
      if t.user_id != user_id then
        ({ success := false,
           message := some "Access denied: You can only modify your own tasks" }, db)
      else
        let f : Task → Task := fun u => { u with status := "completed", completed_at := some now }
        ({ success := true,
           message := some ("Successfully marked task '" ++ t.title ++ "' as completed") },
         { db with tasks := updateFirst (fun u => u.id == task_id) f db.tasks })

/-- src/mcp/tools.py lines 147-189 (`delete_task`): look up by primary key,
check ownership, then delete the row. -/
def delete_task (user_id : String) (task_id : Nat) (fault : Option String)
    (db : DB) : ToolResult × DB :=
  match fault with
  | some e => ({ success := false, message := some ("Error deleting task: " ++ e) }, db)
  | none =>
    match db.tasks.find? (fun t => t.id == task_id) with
    | none =>
      ({ success := false,
         message := some ("Task with ID " ++ toString task_id ++ " not found") }, db)
    | some t =>
      if t.user_id != user_id then
        ({ success := false,
           message := some "Access denied: You can only delete your own tasks" }, db)
      else
        ({ success := true,
           message := some ("Successfully deleted task '" ++ t.title ++ "'") },
         { db with tasks := removeFirst (fun u => u.id == task_id) db.tasks })

/-- src/mcp/tools.py lines 192-237 (`update_task`): look up by primary key,
check ownership, then assign `task.title = title` — nothing else; no
validation runs and `updated_at` is not refreshed. -/
def update_task (user_id : String) (task_id : Nat) (title : String)
    (fault : Option String) (db : DB) : ToolResult × DB :=
  match fault with
  | some e => ({ success := false, message := some ("Error updating task: " ++ e) }, db)
  | none =>
    match db.tasks.find? (fun t => t.id == task_id) with
    | none =>
      ({ success := false,
         message := some ("Task with ID " ++ toString task_id ++ " not found") }, db)
    | some t =>
      if t.user_id != user_id then
        ({ success := false,
           message := some "Access denied: You can only modify your own tasks" }, db)
      else
        let f : Task → Task := fun u => { u with title := title }
        ({ success := true,
           message := some ("Successfully updated task to '" ++ title ++ "'") },
         { db with tasks := updateFirst (fun u => u.id == task_id) f db.tasks })

/-- The keyword-argument payload of a tool call (`**kwargs`); a key the
caller does not pass is `none`. -/
structure Args where
  user_id : Option String := none
  title : Option String := none
  task_id : Option Nat := none
  status_filter : Option String := none
deriving DecidableEq

/-- The fixed registry of src/mcp/server.py lines 17-23: name → tool. -/
def registeredTools : List String :=
  ["add_task", "list_tasks", "complete_task", "delete_task", "update_task"]

/-- Calling a registered tool with a keyword-argument payload. Python binds
`**kwargs` to the tool's parameters before the body runs: a missing required
argument or an unexpected keyword raises a `TypeError` that escapes the tool
(its own `try` has not started yet) — modelled as `.error`. A successful
binding runs the (exception-free by its own `try/except`) tool body. -/
def callTool (name : String) (a : Args) (now : Nat) (fault : Option String)
    (db : DB) : Except String (ToolResult × DB) :=
  if name == "add_task" then
    match a.user_id, a.title, a.task_id, a.status_filter with
    | some uid, some title, none, none => .ok (add_task uid title now fault db)
    | _, _, _, _ => .error "invalid arguments for add_task()"
  else if name == "list_tasks" then
    match a.user_id, a.title, a.task_id with
    | some uid, none, none => .ok (list_tasks uid (a.status_filter.getD "all") fault db)
    | _, _, _ => .error "invalid arguments for list_tasks()"
  else if name == "complete_task" then
    match a.user_id, a.task_id, a.title, a.status_filter with
    | some uid, some tid, none, none => .ok (complete_task uid tid now fault db)
    | _, _, _, _ => .error "invalid arguments for complete_task()"
  else if name == "delete_task" then
    match a.user_id, a.task_id, a.title, a.status_filter with
    | some uid, some tid, none, none => .ok (delete_task uid tid fault db)
    | _, _, _, _ => .error "invalid arguments for delete_task()"
  else if name == "update_task" then
    match a.user_id, a.task_id, a.title, a.status_filter with
    | some uid, some tid, some title, none => .ok (update_task uid tid title fault db)
    | _, _, _, _ => .error "invalid arguments for update_task()"
  else .error "unregistered tool"

/-- src/mcp/server.py lines 25-53 (`MCPServer.execute_tool`): unknown name →
a fixed failure envelope before anything runs; otherwise invoke the tool,
converting any escaping exception into a failure envelope at this boundary. -/
def execute_tool (name : String) (a : Args) (now : Nat) (fault : Option String)
    (db : DB) : ToolResult × DB :=
  if !registeredTools.contains name then
    ({ success := false, message := some ("Tool '" ++ name ++ "' not found") }, db)
  else
    match callTool name a now fault db with
    | .ok r => r
    | .error e =>
      ({ success := false,
         message := some ("Error executing tool '" ++ name ++ "': " ++ e) }, db)

/-- One tool invocation as chosen by the model: the tool name, the parsed
argument payload (possibly with a model-hallucinated `user_id`), and the
storage-fault oracle for this invocation's scoped session. -/
structure ToolCall where
  name : String
  args : Args
  fault : Option String := none

/-- The tool-execution loop of src/agents/todo_orchestrator.py lines 89-101:
for each call in model order, overwrite `function_args["user_id"]` with the
authenticated caller's id, execute through the executor, and collect the
results in call order, threading the store. -/
def runToolCalls (auth : String) (now : Nat) (db : DB) :
    List ToolCall → List ToolResult × DB
  | [] => ([], db)
  | c :: cs =>
    let step := execute_tool c.name { c.args with user_id := some auth } now c.fault db
    let rest := runToolCalls auth now step.2 cs
    (step.1 :: rest.1, rest.2)

/-- `result.get("message", "Operation completed successfully")` for a
successful result (src/agents/todo_orchestrator.py line 116). -/
def successText (r : ToolResult) : String :=
  r.message.getD "Operation completed successfully"

/-- `f"Error: {result.get('message', 'Operation failed')}"` for a failed
result (src/agents/todo_orchestrator.py line 120). -/
def errorText (r : ToolResult) : String :=
  "Error: " ++ r.message.getD "Operation failed"

/-- Reply synthesis, src/agents/todo_orchestrator.py lines 103-124: model
content (when truthy) verbatim; else, when tool results exist, successes'
messages then "Error: "-prefixed failures, each group in call order, joined
by single spaces; else a fixed acknowledgement. -/
def composeReply (content : String) (results : List ToolResult) : String :=
  if content != "" then content
  else if !results.isEmpty then
    String.intercalate " "
      ((results.filter (fun r => r.success)).map successText ++
       (results.filter (fun r => !r.success)).map errorText)
  else "I've processed your request."

/-- The outcome dict of `process_message` (src/agents/todo_orchestrator.py
lines 126-130). -/
structure ChatOutcome where
  response : String
  tool_calls : List String
  tool_results : List ToolResult

/-- The post-LLM part of `TodoChatOrchestrator.process_message`
(src/agents/todo_orchestrator.py lines 82-130): the model's reply is given as
its `content` (Python-falsy "" meaning no content) and its chosen tool calls;
the orchestrator runs the calls with the authenticated `user_id` forced in,
then composes the response. -/
def process_message (auth content : String) (calls : List ToolCall) (now : Nat)
    (db : DB) : ChatOutcome × DB :=
  let run := runToolCalls auth now db calls
  ({ response := composeReply content run.1,
     tool_calls := calls.map (fun c => c.name),
     tool_results := run.1 }, run.2)

/-- Python's `str.lower()`: char-wise lowering over the string's characters. -/
def lowerStr (s : String) : String := String.mk (s.data.map Char.toLower)

/-- Whether the first character list starts the second. -/
def startsList : List Char → List Char → Bool
  | [], _ => true
  | _ :: _, [] => false
  | a :: as, b :: bs => a == b && startsList as bs

/-- Python's `needle in haystack` on strings: contiguous-substring test,
here on character lists. -/
def containsList (needle : List Char) : List Char → Bool
  | [] => needle.isEmpty
  | b :: bs => startsList needle (b :: bs) || containsList needle bs

/-- `search_term.lower() in task.get("title", "").lower()`
(src/agents/task_query.py line 88): case-insensitive contiguous-substring
test, on the underlying character lists. -/
def titleMatches (search_term : String) (s : TaskSummary) : Bool :=
  containsList (lowerStr search_term).toList (lowerStr s.title).toList

/-- src/agents/task_query.py lines 66-95 (`TaskQueryAgent.search_tasks`):
obtain the status-filtered list through the executor, propagate a failure
unchanged, otherwise filter client-side by title match and return the
matches with their count. (`list_tasks` ignores the clock, passed as 0.) -/
def search_tasks (user_id search_term status_filter : String)
    (fault : Option String) (db : DB) : ToolResult × DB :=
  let run := execute_tool "list_tasks"
    { user_id := some user_id, status_filter := some status_filter } 0 fault db
  if !run.1.success then run
  else
    let matching := (run.1.tasks.getD []).filter (titleMatches search_term)
    ({ success := true, tasks := some matching, count := some matching.length }, run.2)

/-- The tasks owned by user `U` in a store. -/
def ownedTasks (U : String) (db : DB) : List Task :=
  db.tasks.filter (fun t => t.user_id == U)

theorem filter_updateFirst_eq (p q : Task → Bool) (f : Task → Task)
    (ts : List Task) (t : Task) (hfind : ts.find? p = some t)
    (hqt : q t = false) (hqf : q (f t) = false) :
    (updateFirst p f ts).filter q = ts.filter q := by
  induction ts with
  | nil => simp at hfind
  | cons a as ih =>
    by_cases hpa : p a
    · rw [List.find?_cons_of_pos _ hpa] at hfind
      obtain rfl : a = t := by exact Option.some_injective _ hfind
      simp [updateFirst, hpa, List.filter_cons, hqt, hqf]
    · have hpa' : p a = false := by simpa using hpa
      rw [List.find?_cons_of_neg _ (by simp [hpa'])] at hfind
      simp [updateFirst, hpa', List.filter_cons, ih hfind]

theorem filter_removeFirst_eq (p q : Task → Bool) (ts : List Task) (t : Task)
    (hfind : ts.find? p = some t) (hqt : q t = false) :
    (removeFirst p ts).filter q = ts.filter q := by
  induction ts with
  | nil => simp at hfind
  | cons a as ih =>
    by_cases hpa : p a
    · rw [List.find?_cons_of_pos _ hpa] at hfind
      obtain rfl : a = t := by exact Option.some_injective _ hfind
      simp [removeFirst, hpa, List.filter_cons, hqt]
    · have hpa' : p a = false := by simpa using hpa
      rw [List.find?_cons_of_neg _ (by simp [hpa'])] at hfind
      simp [removeFirst, hpa', List.filter_cons, ih hfind]

theorem find?_updateFirst (p : Task → Bool) (f : Task → Task)
    (ts : List Task) (t : Task) (hfind : ts.find? p = some t)
    (hpf : p (f t) = true) :
    (updateFirst p f ts).find? p = some (f t) := by
  induction ts with
  | nil => simp at hfind
  | cons a as ih =>
    by_cases hpa : p a
    · rw [List.find?_cons_of_pos _ hpa] at hfind
      obtain rfl : a = t := by exact Option.some_injective _ hfind
      simp [updateFirst, hpa, List.find?_cons_of_pos _ hpf]
    · have hpa' : p a = false := by simpa using hpa
      rw [List.find?_cons_of_neg _ (by simp [hpa'])] at hfind
      rw [updateFirst]
      simp only [hpa', Bool.false_eq_true, if_false]
      rw [List.find?_cons_of_neg _ (by simp [hpa']), ih hfind]

theorem mem_updateFirst_of_not (p : Task → Bool) (f : Task → Task)
    (ts : List Task) (u : Task) (hu : u ∈ ts) (hpu : p u = false) :
    u ∈ updateFirst p f ts := by
  induction ts with
  | nil => simp at hu
  | cons a as ih =>
    rcases List.mem_cons.1 hu with rfl | hmem
    · simp [updateFirst, hpu]
    · by_cases hpa : p a
      · simp [updateFirst, hpa, List.mem_cons, Or.inr hmem]
      · have hpa' : p a = false := by simpa using hpa
        simp [updateFirst, hpa', List.mem_cons, Or.inr (ih hmem)]

theorem mem_updateFirst_imp (p : Task → Bool) (f : Task → Task)
    (ts : List Task) (u : Task) (hu : u ∈ updateFirst p f ts) :
    u ∈ ts ∨ ∃ v ∈ ts, u = f v := by
  induction ts with
  | nil => simp [updateFirst] at hu
  | cons a as ih =>
    by_cases hpa : p a
    · simp only [updateFirst, hpa, if_true] at hu
      rcases List.mem_cons.1 hu with rfl | hmem
      · exact Or.inr ⟨a, List.mem_cons_self a as, rfl⟩
      · exact Or.inl (List.mem_cons.2 (Or.inr hmem))
    · have hpa' : p a = false := by simpa using hpa
      simp only [updateFirst, hpa', if_false] at hu
      rcases List.mem_cons.1 hu with rfl | hmem
      · exact Or.inl (List.mem_cons_self u as)
      · rcases ih hmem with h | ⟨v, hv, rfl⟩
        · exact Or.inl (List.mem_cons.2 (Or.inr h))
        · exact Or.inr ⟨v, List.mem_cons.2 (Or.inr hv), rfl⟩

theorem mem_removeFirst_imp (p : Task → Bool) (ts : List Task) (u : Task)
    (hu : u ∈ removeFirst p ts) : u ∈ ts := by
  induction ts with
  | nil => simp [removeFirst] at hu
  | cons a as ih =>
    by_cases hpa : p a
    · simp only [removeFirst, hpa, if_true] at hu
      exact List.mem_cons.2 (Or.inr hu)
    · have hpa' : p a = false := by simpa using hpa
      simp only [removeFirst, hpa', if_false] at hu
      rcases List.mem_cons.1 hu with rfl | hmem
      · exact List.mem_cons_self u as
      · exact List.mem_cons.2 (Or.inr (ih hmem))

theorem find?_removeFirst_none (k : Nat) (ts : List Task) (t : Task)
    (hnodup : (ts.map Task.id).Nodup)
    (hfind : ts.find? (fun u => u.id == k) = some t) :
    (removeFirst (fun u => u.id == k) ts).find? (fun u => u.id == k) = none := by
  induction ts with
  | nil => simp at hfind
  | cons a as ih =>
    rw [List.map_cons, List.nodup_cons] at hnodup
    by_cases hpa : (a.id == k) = true
    · simp only [removeFirst, hpa, if_true]
      rw [List.find?_eq_none]
      intro x hx hpx
      have hxk : x.id = k := by simpa using hpx
      have hak : a.id = k := by simpa using hpa
      exact hnodup.1 (by rw [hak, ← hxk]; exact List.mem_map_of_mem Task.id hx)
    · have hpa' : (a.id == k) = false := by simpa using hpa
      rw [List.find?_cons_of_neg _ (by simp [hpa'])] at hfind
      simp only [removeFirst, hpa', Bool.false_eq_true, if_false]
      rw [List.find?_cons_of_neg _ (by simp [hpa'])]
      exact ih hnodup.2 hfind

/-- Primary keys already assigned are below the autoincrement counter. -/
def freshIds (db : DB) : Prop := ∀ u ∈ db.tasks, u.id < db.nextId

/-- Every task of `db2` was either freshly inserted since `db0` (its id is at
or above db0's counter) or keeps the id and owner of a task of `db0`. -/
def tracksFrom (db0 db2 : DB) : Prop :=
  ∀ u ∈ db2.tasks, db0.nextId ≤ u.id ∨
    ∃ u0 ∈ db0.tasks, u0.id = u.id ∧ u0.user_id = u.user_id

/-- Store invariant carried across the tool calls of one chat turn, relative
to the turn's initial store `db0` and the non-acting user `U1`. -/
def turnInv (U1 : String) (db0 db2 : DB) : Prop :=
  ownedTasks U1 db2 = ownedTasks U1 db0 ∧ freshIds db2 ∧
    db0.nextId ≤ db2.nextId ∧ tracksFrom db0 db2

theorem add_task_inv (U1 uid title : String) (hne : uid ≠ U1) (now : Nat)
    (fault : Option String) (db0 db : DB) (hInv : turnInv U1 db0 db) :
    turnInv U1 db0 (add_task uid title now fault db).2 ∧
    (add_task uid title now fault db).1.tasks = none := by
  obtain ⟨hown, hfresh, hmono, htracks⟩ := hInv
  cases fault with
  | some e => exact ⟨⟨hown, hfresh, hmono, htracks⟩, rfl⟩
  | none =>
    refine ⟨⟨?_, ?_, ?_, ?_⟩, rfl⟩
    · simp only [add_task, ownedTasks, List.filter_append]
      have : (uid == U1) = false := by simp [hne]
      simp only [List.filter_cons, this, Bool.false_eq_true, if_false, List.filter_nil,
        List.append_nil]
      exact hown
    · intro u hu
      simp only [add_task] at hu ⊢
      rcases List.mem_append.1 hu with h | h
      · exact Nat.lt_succ_of_lt (hfresh u h)
      · simp at h
        simp [h]
    · simp only [add_task]
      exact Nat.le_trans hmono (Nat.le_succ _)
    · intro u hu
      simp only [add_task] at hu
      rcases List.mem_append.1 hu with h | h
      · exact htracks u h
      · left
        simp at h
        simp [h, hmono]

theorem list_tasks_inv (U1 uid sf : String) (fault : Option String)
    (db0 db : DB) (hInv : turnInv U1 db0 db) :
    turnInv U1 db0 (list_tasks uid sf fault db).2 ∧
    ∀ s ∈ ((list_tasks uid sf fault db).1.tasks.getD []),
      ∃ u ∈ db.tasks, u.user_id = uid ∧ s.id = u.id := by
  cases fault with
  | some e => exact ⟨hInv, by simp [list_tasks]⟩
  | none =>
    refine ⟨hInv, ?_⟩
    intro s hs
    simp only [list_tasks, Option.getD_some] at hs
    obtain ⟨u, hu, rfl⟩ := List.mem_map.1 hs
    have hu' := List.mem_filter.1 hu
    have huid : u.user_id = uid := by
      have hand := hu'.2
      rw [Bool.and_eq_true] at hand
      exact eq_of_beq hand.1
    exact ⟨u, hu'.1, huid, rfl⟩

theorem updateFirst_inv (U1 : String) (k : Nat) (f : Task → Task)
    (hfid : ∀ u, (f u).id = u.id) (hfuser : ∀ u, (f u).user_id = u.user_id)
    (db0 db : DB) (t : Task)
    (hfind : db.tasks.find? (fun u => u.id == k) = some t)
    (htU : (t.user_id == U1) = false)
    (hInv : turnInv U1 db0 db) :
    turnInv U1 db0 { db with tasks := updateFirst (fun u => u.id == k) f db.tasks } := by
  obtain ⟨hown, hfresh, hmono, htracks⟩ := hInv
  refine ⟨?_, ?_, hmono, ?_⟩
  · have hqf : ((f t).user_id == U1) = false := by rw [hfuser]; exact htU
    simpa only [ownedTasks] using
      (filter_updateFirst_eq _ _ f db.tasks t hfind htU hqf).trans hown
  · intro u hu
    rcases mem_updateFirst_imp _ f db.tasks u hu with h | ⟨v, hv, rfl⟩
    · exact hfresh u h
    · rw [hfid]
      exact hfresh v hv
  · intro u hu
    rcases mem_updateFirst_imp _ f db.tasks u hu with h | ⟨v, hv, rfl⟩
    · exact htracks u h
    · rcases htracks v hv with h | ⟨u0, hu0, hid, huser⟩
      · left
        rw [hfid]
        exact h
      · right
        exact ⟨u0, hu0, by rw [hfid]; exact hid, by rw [hfuser]; exact huser⟩

theorem removeFirst_inv (U1 : String) (k : Nat) (db0 db : DB) (t : Task)
    (hfind : db.tasks.find? (fun u => u.id == k) = some t)
    (htU : (t.user_id == U1) = false)
    (hInv : turnInv U1 db0 db) :
    turnInv U1 db0 { db with tasks := removeFirst (fun u => u.id == k) db.tasks } := by
  obtain ⟨hown, hfresh, hmono, htracks⟩ := hInv
  refine ⟨?_, ?_, hmono, ?_⟩
  · simpa only [ownedTasks] using
      (filter_removeFirst_eq _ _ db.tasks t hfind htU).trans hown
  · intro u hu
    exact hfresh u (mem_removeFirst_imp _ db.tasks u hu)
  · intro u hu
    exact htracks u (mem_removeFirst_imp _ db.tasks u hu)

theorem complete_task_inv (U1 uid : String) (hne : uid ≠ U1) (k now : Nat)
    (fault : Option String) (db0 db : DB) (hInv : turnInv U1 db0 db) :
    turnInv U1 db0 (complete_task uid k now fault db).2 ∧
    (complete_task uid k now fault db).1.tasks = none := by
  cases fault with
  | some e => exact ⟨hInv, rfl⟩
  | none =>
    cases hfind : db.tasks.find? (fun u => u.id == k) with
    | none =>
      constructor
      · simpa only [complete_task, hfind] using hInv
      · simp [complete_task, hfind]
    | some t =>
      by_cases hguard : (t.user_id != uid) = true
      · constructor
        · simpa only [complete_task, hfind, hguard, if_true] using hInv
        · simp [complete_task, hfind, hguard]
      · have hguard' : (t.user_id != uid) = false := by simpa using hguard
        have htuid : t.user_id = uid := by simpa [bne] using hguard'
        have htU : (t.user_id == U1) = false := by simp [htuid, hne]
        constructor
        · simp only [complete_task, hfind, hguard', Bool.false_eq_true, if_false]
          exact updateFirst_inv U1 k
            (fun u => { u with status := "completed", completed_at := some now })
            (fun u => rfl) (fun u => rfl) db0 db t hfind htU hInv
        · simp [complete_task, hfind, hguard']

theorem update_task_inv (U1 uid title : String) (hne : uid ≠ U1) (k : Nat)
    (fault : Option String) (db0 db : DB) (hInv : turnInv U1 db0 db) :
    turnInv U1 db0 (update_task uid k title fault db).2 ∧
    (update_task uid k title fault db).1.tasks = none := by
  cases fault with
  | some e => exact ⟨hInv, rfl⟩
  | none =>
    cases hfind : db.tasks.find? (fun u => u.id == k) with
    | none =>
      constructor
      · simpa only [update_task, hfind] using hInv
      · simp [update_task, hfind]
    | some t =>
      by_cases hguard : (t.user_id != uid) = true
      · constructor
        · simpa only [update_task, hfind, hguard, if_true] using hInv
        · simp [update_task, hfind, hguard]
      · have hguard' : (t.user_id != uid) = false := by simpa using hguard
        have htuid : t.user_id = uid := by simpa [bne] using hguard'
        have htU : (t.user_id == U1) = false := by simp [htuid, hne]
        constructor
        · simp only [update_task, hfind, hguard', Bool.false_eq_true, if_false]
          exact updateFirst_inv U1 k (fun u => { u with title := title })
            (fun u => rfl) (fun u => rfl) db0 db t hfind htU hInv
        · simp [update_task, hfind, hguard']

theorem delete_task_inv (U1 uid : String) (hne : uid ≠ U1) (k : Nat)
    (fault : Option String) (db0 db : DB) (hInv : turnInv U1 db0 db) :
    turnInv U1 db0 (delete_task uid k fault db).2 ∧
    (delete_task uid k fault db).1.tasks = none := by
  cases fault with
  | some e => exact ⟨hInv, rfl⟩
  | none =>
    cases hfind : db.tasks.find? (fun u => u.id == k) with
    | none =>
      constructor
      · simpa only [delete_task, hfind] using hInv
      · simp [delete_task, hfind]
    | some t =>
      by_cases hguard : (t.user_id != uid) = true
      · constructor
        · simpa only [delete_task, hfind, hguard, if_true] using hInv
        · simp [delete_task, hfind, hguard]
      · have hguard' : (t.user_id != uid) = false := by simpa using hguard
        have htuid : t.user_id = uid := by simpa [bne] using hguard'
        have htU : (t.user_id == U1) = false := by simp [htuid, hne]
        constructor
        · simp only [delete_task, hfind, hguard', Bool.false_eq_true, if_false]
          exact removeFirst_inv U1 k db0 db t hfind htU hInv
        · simp [delete_task, hfind, hguard']

theorem execute_tool_inv (U1 uid name : String) (hne : uid ≠ U1) (a : Args)
    (now : Nat) (fault : Option String) (db0 db : DB)
    (hauth : a.user_id = some uid) (hInv : turnInv U1 db0 db) :
    turnInv U1 db0 (execute_tool name a now fault db).2 ∧
    ∀ s ∈ ((execute_tool name a now fault db).1.tasks.getD []),
      ∃ u ∈ db.tasks, u.user_id = uid ∧ s.id = u.id := by
  obtain ⟨au, ati, atid, asf⟩ := a
  dsimp only at hauth
  subst hauth
  by_cases hreg : registeredTools.contains name = true
  · have hmem : name ∈ registeredTools := by simpa using hreg
    have hexec : execute_tool name ⟨some uid, ati, atid, asf⟩ now fault db =
        match callTool name ⟨some uid, ati, atid, asf⟩ now fault db with
        | .ok r => r
        | .error e =>
          ({ success := false,
             message := some ("Error executing tool '" ++ name ++ "': " ++ e) }, db) := by
      simp [execute_tool, hreg, hmem]
    cases hcall : callTool name ⟨some uid, ati, atid, asf⟩ now fault db with
    | error e =>
      rw [hexec, hcall]
      exact ⟨hInv, by simp⟩
    | ok r =>
      rw [hexec, hcall]
      have h5 : name = "add_task" ∨ name = "list_tasks" ∨ name = "complete_task" ∨
          name = "delete_task" ∨ name = "update_task" := by
        simpa [registeredTools] using hmem
      rcases h5 with rfl | rfl | rfl | rfl | rfl
      · cases ati with
        | none => simp [callTool] at hcall
        | some title =>
          cases atid with
          | some tid => simp [callTool] at hcall
          | none =>
            cases asf with
            | some sf => simp [callTool] at hcall
            | none =>
              simp only [callTool] at hcall
              rw [show r = add_task uid title now fault db from by
                simpa using hcall.symm]
              have h := add_task_inv U1 uid title hne now fault db0 db hInv
              exact ⟨h.1, by simp [h.2]⟩
      · cases ati with
        | some t => simp [callTool] at hcall
        | none =>
          cases atid with
          | some tid => simp [callTool] at hcall
          | none =>
            simp only [callTool] at hcall
            rw [show r = list_tasks uid (asf.getD "all") fault db from by
              simpa using hcall.symm]
            exact list_tasks_inv U1 uid (asf.getD "all") fault db0 db hInv
      · cases atid with
        | none => simp [callTool] at hcall
        | some tid =>
          cases ati with
          | some t => simp [callTool] at hcall
          | none =>
            cases asf with
            | some sf => simp [callTool] at hcall
            | none =>
              simp only [callTool] at hcall
              rw [show r = complete_task uid tid now fault db from by
                simpa using hcall.symm]
              have h := complete_task_inv U1 uid hne tid now fault db0 db hInv
              exact ⟨h.1, by simp [h.2]⟩
      · cases atid with
        | none => simp [callTool] at hcall
        | some tid =>
          cases ati with
          | some t => simp [callTool] at hcall
          | none =>
            cases asf with
            | some sf => simp [callTool] at hcall
            | none =>
              simp only [callTool] at hcall
              rw [show r = delete_task uid tid fault db from by
                simpa using hcall.symm]
              have h := delete_task_inv U1 uid hne tid fault db0 db hInv
              exact ⟨h.1, by simp [h.2]⟩
      · cases atid with
        | none => simp [callTool] at hcall
        | some tid =>
          cases ati with
          | none => simp [callTool] at hcall
          | some title =>
            cases asf with
            | some sf => simp [callTool] at hcall
            | none =>
              simp only [callTool] at hcall
              rw [show r = update_task uid tid title fault db from by
                simpa using hcall.symm]
              have h := update_task_inv U1 uid title hne tid fault db0 db hInv
              exact ⟨h.1, by simp [h.2]⟩
  · have hreg' : registeredTools.contains name = false := by simpa using hreg
    have hmem' : ¬ name ∈ registeredTools := by simpa using hreg'
    have hexec : execute_tool name ⟨some uid, ati, atid, asf⟩ now fault db =
        ({ success := false, message := some ("Tool '" ++ name ++ "' not found") }, db) := by
      simp [execute_tool, hreg', hmem']
    rw [hexec]
    exact ⟨hInv, by simp⟩

theorem read_safe (U1 auth : String) (hne : auth ≠ U1) (db0 db : DB)
    (hfresh0 : freshIds db0) (hnodup0 : (db0.tasks.map Task.id).Nodup)
    (htracks : tracksFrom db0 db)
    (u : Task) (hu : u ∈ db.tasks) (huser : u.user_id = auth)
    (t : Task) (ht : t ∈ db0.tasks) (htU : t.user_id = U1) : u.id ≠ t.id := by
  intro heq
  rcases htracks u hu with h | ⟨u0, hu0, hid, huser0⟩
  · exact Nat.ne_of_gt (lt_of_lt_of_le (hfresh0 t ht) h) heq
  · have hu0t : u0 = t := List.inj_on_of_nodup_map hnodup0 hu0 ht (by rw [hid, heq])
    apply hne
    rw [← huser, ← huser0, hu0t, htU]

theorem runToolCalls_inv (U1 auth : String) (hne : auth ≠ U1) (now : Nat)
    (calls : List ToolCall) (db0 db : DB)
    (hfresh0 : freshIds db0) (hnodup0 : (db0.tasks.map Task.id).Nodup)
    (hInv : turnInv U1 db0 db) :
    turnInv U1 db0 (runToolCalls auth now db calls).2 ∧
    ∀ r ∈ (runToolCalls auth now db calls).1, ∀ s ∈ (r.tasks.getD []),
      ∀ t ∈ db0.tasks, t.user_id = U1 → s.id ≠ t.id := by
  induction calls generalizing db with
  | nil => exact ⟨hInv, by simp [runToolCalls]⟩
  | cons c cs ih =>
    obtain ⟨hInv', hread⟩ := execute_tool_inv U1 auth c.name hne
      { c.args with user_id := some auth } now c.fault db0 db rfl hInv
    obtain ⟨hInvF, hreadF⟩ := ih _ hInv'
    refine ⟨hInvF, ?_⟩
    intro r hr s hs t ht htU
    simp only [runToolCalls, List.mem_cons] at hr
    rcases hr with rfl | hr
    · obtain ⟨u, hu, huser, hsid⟩ := hread s hs
      rw [hsid]
      exact read_safe U1 auth hne db0 db hfresh0 hnodup0 hInv.2.2.2 u hu huser t ht htU
    · exact hreadF r hr s hs t ht htU

/-- C1: in a chat turn processed with authenticated identity U2, the
orchestrator overwrites every tool call's `user_id` with U2, so for any other
user U1 no tool call — whatever user_id the model's payload claims — can
modify or delete a task owned by U1 (U1's rows are exactly preserved) or
read one (no returned task summary carries the id of any of U1's rows),
given the store's primary-key invariants (unique ids, all below the
autoincrement counter). -/
theorem c1_cross_user_isolation (U1 U2 : String) (hne : U1 ≠ U2)
    (content : String) (calls : List ToolCall) (now : Nat) (db : DB)
    (hfresh : freshIds db) (hnodup : (db.tasks.map Task.id).Nodup) :
    ownedTasks U1 (process_message U2 content calls now db).2 = ownedTasks U1 db ∧
    ∀ r ∈ (process_message U2 content calls now db).1.tool_results,
      ∀ s ∈ (r.tasks.getD []), ∀ t ∈ db.tasks, t.user_id = U1 → s.id ≠ t.id := by
  have hInv0 : turnInv U1 db db :=
    ⟨rfl, hfresh, Nat.le_refl _, fun u hu => Or.inr ⟨u, hu, rfl, rfl⟩⟩
  have h := runToolCalls_inv U1 U2 (Ne.symm hne) now calls db db hfresh hnodup hInv0
  exact ⟨h.1.1, h.2⟩

/-- A concrete store for witnesses: task 1 owned by alice, task 2 by bob. -/
def dbW : DB :=
  { tasks :=
      [{ id := 1, user_id := "alice", title := "pay rent", status := "pending",
         created_at := 0, completed_at := none, updated_at := 0 },
       { id := 2, user_id := "bob", title := "Buy Milk", status := "pending",
         created_at := 0, completed_at := none, updated_at := 0 }],
    nextId := 3 }

/-- Witness for C1 at a concrete turn: bob's turn carries a payload claiming
alice's user_id and alice's task id, yet alice's rows are untouched and no
result summary exposes them. -/
theorem c1_witness :
    ownedTasks "alice" (process_message "bob" ""
      [⟨"delete_task", { user_id := some "alice", task_id := some 1 }, none⟩,
       ⟨"list_tasks", { user_id := some "alice" }, none⟩] 0 dbW).2 =
      ownedTasks "alice" dbW ∧
    ∀ r ∈ (process_message "bob" ""
      [⟨"delete_task", { user_id := some "alice", task_id := some 1 }, none⟩,
       ⟨"list_tasks", { user_id := some "alice" }, none⟩] 0 dbW).1.tool_results,
      ∀ s ∈ (r.tasks.getD []), ∀ t ∈ dbW.tasks, t.user_id = "alice" → s.id ≠ t.id :=
  c1_cross_user_isolation "alice" "bob" (by decide) ""
    [⟨"delete_task", { user_id := some "alice", task_id := some 1 }, none⟩,
     ⟨"list_tasks", { user_id := some "alice" }, none⟩] 0 dbW
    (by intro u hu; fin_cases hu <;> decide) (by decide)

/-- C3: executing a tool name outside the five-entry registry returns the
fixed "Tool '<name>' not found" failure envelope, never raises (the embedding
is total), and performs no storage access: the store component is returned
unchanged, whatever the argument payload. -/
theorem c3_unknown_tool (name : String) (a : Args) (now : Nat)
    (fault : Option String) (db : DB) (hname : name ∉ registeredTools) :
    execute_tool name a now fault db =
      ({ success := false, message := some ("Tool '" ++ name ++ "' not found") }, db) := by
  have hreg' : registeredTools.contains name = false := by simpa using hname
  simp [execute_tool, hreg', hname]

/-- Witness for C3 at the unregistered name "foo". -/
theorem c3_witness :
    "foo" ∉ registeredTools ∧
    execute_tool "foo" {} 0 none dbW =
      ({ success := false, message := some "Tool 'foo' not found" }, dbW) :=
  ⟨by decide, c3_unknown_tool "foo" {} 0 none dbW (by decide)⟩

theorem runToolCalls_length (auth : String) (now : Nat) (db : DB)
    (calls : List ToolCall) :
    (runToolCalls auth now db calls).1.length = calls.length := by
  induction calls generalizing db with
  | nil => rfl
  | cons c cs ih => simp [runToolCalls, ih]

/-- C4: when a registered tool's invocation raises (here: the argument-payload
binding fails, the one exception that escapes the tool bodies' own
try/except), the executor catches it and returns the
"Error executing tool '<name>': <cause>" failure envelope with the store
untouched; consequently a turn never aborts on a tool fault — it produces
exactly one result per tool call, and the reply is always composed from the
full result list. -/
theorem c4_executor_catches (name : String) (a : Args) (now : Nat)
    (fault : Option String) (db : DB) (e : String)
    (hreg : name ∈ registeredTools)
    (herr : callTool name a now fault db = .error e) :
    execute_tool name a now fault db =
      ({ success := false,
         message := some ("Error executing tool '" ++ name ++ "': " ++ e) }, db) ∧
    ∀ (auth content : String) (calls : List ToolCall) (db0 : DB),
      (process_message auth content calls now db0).1.tool_results.length = calls.length ∧
      (process_message auth content calls now db0).1.response =
        composeReply content (process_message auth content calls now db0).1.tool_results := by
  constructor
  · have hreg' : registeredTools.contains name = true := by simpa using hreg
    simp [execute_tool, hreg', hreg, herr]
  · intro auth content calls db0
    exact ⟨runToolCalls_length auth now db0 calls, rfl⟩

/-- Witness for C4: add_task invoked without a title — the binding exception
is converted at the executor boundary. -/
theorem c4_witness :
    "add_task" ∈ registeredTools ∧
    callTool "add_task" { user_id := some "bob" } 0 none dbW =
      .error "invalid arguments for add_task()" ∧
    execute_tool "add_task" { user_id := some "bob" } 0 none dbW =
      ({ success := false,
         message :=
           some "Error executing tool 'add_task': invalid arguments for add_task()" },
       dbW) :=
  ⟨by decide, rfl,
    (c4_executor_catches "add_task" { user_id := some "bob" } 0 none dbW
      "invalid arguments for add_task()" (by decide) rfl).1⟩

/-- C2 counterexample: with task 1 owned by alice, bob's complete_task on
id 1 (exists, not owned) and on id 99 (absent) return different ToolResults
("Access denied…" versus "Task with ID 99 not found"), refuting that the two
cases surface as the same result. -/
theorem c2_counterexample :
    (complete_task "bob" 1 0 none dbW).1 ≠ (complete_task "bob" 99 0 none dbW).1 := by
  decide

/-- C2 amended: for every task-referencing tool, both "task absent" and
"task owned by another user" surface as a failure (success = false) with the
store unchanged — but with different message texts, so the two cases remain
distinguishable to the caller. -/
theorem c2_denial_no_mutation (uid title : String) (k now : Nat) (db : DB)
    (h : db.tasks.find? (fun t => t.id == k) = none ∨
         ∃ t, db.tasks.find? (fun t => t.id == k) = some t ∧ t.user_id ≠ uid) :
    ((complete_task uid k now none db).1.success = false ∧
      (complete_task uid k now none db).2 = db) ∧
    ((delete_task uid k none db).1.success = false ∧
      (delete_task uid k none db).2 = db) ∧
    ((update_task uid k title none db).1.success = false ∧
      (update_task uid k title none db).2 = db) := by
  rcases h with hfind | ⟨t, hfind, hne⟩
  · refine ⟨?_, ?_, ?_⟩ <;> simp [complete_task, delete_task, update_task, hfind]
  · have hguard : (t.user_id != uid) = true := bne_iff_ne.2 hne
    refine ⟨?_, ?_, ?_⟩ <;>
      simp [complete_task, delete_task, update_task, hfind, hguard]

/-- Witness for C2's amended statement: bob against alice's task 1. -/
theorem c2_witness :
    ((complete_task "bob" 1 0 none dbW).1.success = false ∧
      (complete_task "bob" 1 0 none dbW).2 = dbW) ∧
    ((delete_task "bob" 1 none dbW).1.success = false ∧
      (delete_task "bob" 1 none dbW).2 = dbW) ∧
    ((update_task "bob" 1 "x" none dbW).1.success = false ∧
      (update_task "bob" 1 "x" none dbW).2 = dbW) :=
  c2_denial_no_mutation "bob" "x" 1 0 dbW
    (Or.inr ⟨{ id := 1, user_id := "alice", title := "pay rent", status := "pending",
               created_at := 0, completed_at := none, updated_at := 0 }, rfl, by decide⟩)

/-- C5: the orchestrator's reply is the model content verbatim when present
(non-empty, Python-truthy); else, when at least one tool call was made, the
space-joined concatenation of each successful result's message (the
"Operation completed successfully" default standing in for a missing message
key) followed by each failed result's message prefixed "Error: " — successes
first, then failures, each group in call order; else the fixed
acknowledgement. -/
theorem c5_reply_composition (auth content : String) (calls : List ToolCall)
    (now : Nat) (db : DB) :
    (content ≠ "" → (process_message auth content calls now db).1.response = content) ∧
    (content = "" → calls ≠ [] →
      (process_message auth content calls now db).1.response =
        String.intercalate " "
          ((((process_message auth content calls now db).1.tool_results).filter
              (fun r => r.success)).map
            (fun r => r.message.getD "Operation completed successfully") ++
           (((process_message auth content calls now db).1.tool_results).filter
              (fun r => !r.success)).map
            (fun r => "Error: " ++ r.message.getD "Operation failed"))) ∧
    (content = "" → calls = [] →
      (process_message auth content calls now db).1.response =
        "I've processed your request.") := by
  refine ⟨?_, ?_, ?_⟩
  · intro hc
    have hb : (content != "") = true := bne_iff_ne.2 hc
    simp [process_message, composeReply, hb]
  · intro hc hcalls
    subst hc
    have hlen : (runToolCalls auth now db calls).1.length = calls.length :=
      runToolCalls_length auth now db calls
    have hne : (runToolCalls auth now db calls).1 ≠ [] := by
      intro h
      apply hcalls
      rw [← List.length_eq_zero, ← hlen, h]
      rfl
    have hemp : (runToolCalls auth now db calls).1.isEmpty = false := by
      simpa [List.isEmpty_iff] using hne
    simp [process_message, composeReply, hemp, successText, errorText]
    rfl
  · intro hc hcalls
    subst hc
    subst hcalls
    simp [process_message, composeReply, runToolCalls]

/-- Witness for C5, the spec's end-to-end scenario: a turn with no model
content whose first call fails (unknown task id 99) and whose second (list)
succeeds; the composed text puts the success text before the
"Error: "-prefixed failure. -/
theorem c5_witness :
    (process_message "bob" ""
      [⟨"complete_task", { task_id := some 99 }, none⟩, ⟨"list_tasks", {}, none⟩]
      0 dbW).1.response =
      "Operation completed successfully Error: Task with ID 99 not found" := by
  rw [(c5_reply_composition "bob" ""
    [⟨"complete_task", { task_id := some 99 }, none⟩, ⟨"list_tasks", {}, none⟩]
    0 dbW).2.1 rfl (by simp)]
  rfl

/-- C6: search_tasks propagates a failed underlying list call unchanged;
otherwise it returns success with exactly the order-preserving subsequence of
the filtered list whose titles contain the term case-insensitively, and
count always equals the length of the returned tasks. -/
theorem c6_search_filters (uid term sf : String) (fault : Option String) (db : DB) :
    ((execute_tool "list_tasks" { user_id := some uid, status_filter := some sf }
        0 fault db).1.success = false →
      search_tasks uid term sf fault db =
        execute_tool "list_tasks" { user_id := some uid, status_filter := some sf }
          0 fault db) ∧
    ((execute_tool "list_tasks" { user_id := some uid, status_filter := some sf }
        0 fault db).1.success = true →
      (search_tasks uid term sf fault db).1 =
        { success := true,
          tasks := some (((execute_tool "list_tasks"
              { user_id := some uid, status_filter := some sf }
              0 fault db).1.tasks.getD []).filter (titleMatches term)),
          count := some (((execute_tool "list_tasks"
              { user_id := some uid, status_filter := some sf }
              0 fault db).1.tasks.getD []).filter (titleMatches term)).length } ∧
      (((execute_tool "list_tasks" { user_id := some uid, status_filter := some sf }
          0 fault db).1.tasks.getD []).filter (titleMatches term)).Sublist
        ((execute_tool "list_tasks" { user_id := some uid, status_filter := some sf }
          0 fault db).1.tasks.getD []) ∧
      (search_tasks uid term sf fault db).2 = db) ∧
    (∀ l, (search_tasks uid term sf fault db).1.tasks = some l →
      (search_tasks uid term sf fault db).1.count = some l.length) := by
  cases fault with
  | some e =>
    refine ⟨fun _ => rfl, fun hs => ?_, fun l hl => ?_⟩
    · have hfalse : (execute_tool "list_tasks"
          { user_id := some uid, status_filter := some sf }
          0 (some e) db).1.success = false := rfl
      rw [hfalse] at hs
      cases hs
    · have hnone : (search_tasks uid term sf (some e) db).1.tasks = none := rfl
      rw [hnone] at hl
      cases hl
  | none =>
    refine ⟨fun hf => ?_, fun _ => ⟨rfl, List.filter_sublist _, rfl⟩, fun l hl => ?_⟩
    · have htrue : (execute_tool "list_tasks"
          { user_id := some uid, status_filter := some sf }
          0 none db).1.success = true := rfl
      rw [htrue] at hf
      cases hf
    · have htasks : (search_tasks uid term sf none db).1.tasks =
          some (((execute_tool "list_tasks"
            { user_id := some uid, status_filter := some sf }
            0 none db).1.tasks.getD []).filter (titleMatches term)) := rfl
      rw [htasks] at hl
      have hleq := Option.some_injective _ hl
      have hcount : (search_tasks uid term sf none db).1.count =
          some (((execute_tool "list_tasks"
            { user_id := some uid, status_filter := some sf }
            0 none db).1.tasks.getD []).filter (titleMatches term)).length := rfl
      rw [hcount, hleq]

/-- Witness for C6: searching bob's tasks for "MILK" matches "Buy Milk"
case-insensitively, and the failure branch propagates a faulted list call. -/
theorem c6_witness :
    ((execute_tool "list_tasks" { user_id := some "bob", status_filter := some "all" }
        0 (some "boom") dbW).1.success = false ∧
      search_tasks "bob" "MILK" "all" (some "boom") dbW =
        execute_tool "list_tasks" { user_id := some "bob", status_filter := some "all" }
          0 (some "boom") dbW) ∧
    ((execute_tool "list_tasks" { user_id := some "bob", status_filter := some "all" }
        0 none dbW).1.success = true ∧
      (search_tasks "bob" "MILK" "all" none dbW).1.tasks =
        some [{ id := 2, title := "Buy Milk", status := "pending" }] ∧
      (search_tasks "bob" "MILK" "all" none dbW).1.count = some 1) :=
  ⟨⟨rfl, (c6_search_filters "bob" "MILK" "all" (some "boom") dbW).1 rfl⟩,
   ⟨rfl, by
      have h := ((c6_search_filters "bob" "MILK" "all" none dbW).2.1 rfl).1
      rw [h]
      decide,
    by
      have h := ((c6_search_filters "bob" "MILK" "all" none dbW).2.1 rfl).1
      rw [h]
      decide⟩⟩

/-- C7: complete_task is idempotent in effect on status — on a user-owned
task a first and a second call both return success (no error), and after the
second call the task's status is still "completed". -/
theorem c7_complete_idempotent (uid : String) (k now now2 : Nat) (db : DB)
    (t : Task) (hfind : db.tasks.find? (fun u => u.id == k) = some t)
    (hown : t.user_id = uid) :
    (complete_task uid k now none db).1.success = true ∧
    (complete_task uid k now2 none (complete_task uid k now none db).2).1.success = true ∧
    ∃ t2, ((complete_task uid k now2 none (complete_task uid k now none db).2).2).tasks.find?
        (fun u => u.id == k) = some t2 ∧ t2.status = "completed" := by
  have hguard : (t.user_id != uid) = false := by simp [hown]
  have hp := List.find?_some hfind
  have hstep1 : complete_task uid k now none db =
      ({ success := true,
         message := some ("Successfully marked task '" ++ t.title ++ "' as completed") },
       { db with tasks := updateFirst (fun u => u.id == k) (fun u => { u with status := "completed", completed_at := some now }) db.tasks }) := by
    simp only [complete_task, hfind, hguard, Bool.false_eq_true, if_false]
  have hfind1 : (updateFirst (fun u => u.id == k)
      (fun u => { u with status := "completed", completed_at := some now }) db.tasks).find?
        (fun u => u.id == k) =
      some { t with status := "completed", completed_at := some now } :=
    find?_updateFirst _ _ db.tasks t hfind hp
  rw [hstep1]
  refine ⟨rfl, ?_, ?_⟩
  · simp only [complete_task, hfind1, hguard, Bool.false_eq_true, if_false]
  · refine ⟨{ t with status := "completed", completed_at := some now2 }, ?_, rfl⟩
    simp only [complete_task, hfind1, hguard, Bool.false_eq_true, if_false]
    exact find?_updateFirst (fun u => u.id == k)
      (fun u => { u with status := "completed", completed_at := some now2 }) _
      { t with status := "completed", completed_at := some now } hfind1 hp

/-- Witness for C7: double-complete on bob's own task 2. -/
theorem c7_witness :
    (complete_task "bob" 2 5 none dbW).1.success = true ∧
    (complete_task "bob" 2 9 none (complete_task "bob" 2 5 none dbW).2).1.success = true ∧
    ∃ t2, ((complete_task "bob" 2 9 none (complete_task "bob" 2 5 none dbW).2).2).tasks.find?
        (fun u => u.id == 2) = some t2 ∧ t2.status = "completed" :=
  c7_complete_idempotent "bob" 2 5 9 dbW
    { id := 2, user_id := "bob", title := "Buy Milk", status := "pending",
      created_at := 0, completed_at := none, updated_at := 0 } rfl rfl

/-- C8: after a successful delete of a user-owned task, the task is no
longer retrievable — a primary-key lookup returns none and every list result
omits its id — and a second delete on the same id returns a failure result
(success = false) instead of raising. -/
theorem c8_delete_then_gone (uid : String) (k : Nat) (db : DB) (t : Task)
    (hnodup : (db.tasks.map Task.id).Nodup)
    (hfind : db.tasks.find? (fun u => u.id == k) = some t)
    (hown : t.user_id = uid) :
    (delete_task uid k none db).1.success = true ∧
    ((delete_task uid k none db).2).tasks.find? (fun u => u.id == k) = none ∧
    (∀ sf : String, ∀ s ∈ (((list_tasks uid sf none
        (delete_task uid k none db).2).1.tasks).getD []), s.id ≠ k) ∧
    (delete_task uid k none (delete_task uid k none db).2).1.success = false := by
  have hguard : (t.user_id != uid) = false := by simp [hown]
  have hstep : delete_task uid k none db =
      ({ success := true,
         message := some ("Successfully deleted task '" ++ t.title ++ "'") },
       { db with tasks := removeFirst (fun u => u.id == k) db.tasks }) := by
    simp only [delete_task, hfind, hguard, Bool.false_eq_true, if_false]
  have hnone : (removeFirst (fun u => u.id == k) db.tasks).find?
      (fun u => u.id == k) = none :=
    find?_removeFirst_none k db.tasks t hnodup hfind
  rw [hstep]
  refine ⟨rfl, hnone, ?_, ?_⟩
  · intro sf s hs
    simp only [list_tasks, Option.getD_some] at hs
    obtain ⟨u, hu, rfl⟩ := List.mem_map.1 hs
    have hu' := (List.mem_filter.1 hu).1
    have := List.find?_eq_none.1 hnone u hu'
    simpa using this
  · simp only [delete_task, hnone]

/-- Witness for C8: alice deletes her task 1, then cannot find, list, or
delete it again. -/
theorem c8_witness :
    (delete_task "alice" 1 none dbW).1.success = true ∧
    ((delete_task "alice" 1 none dbW).2).tasks.find? (fun u => u.id == 1) = none ∧
    (∀ sf : String, ∀ s ∈ (((list_tasks "alice" sf none
        (delete_task "alice" 1 none dbW).2).1.tasks).getD []), s.id ≠ 1) ∧
    (delete_task "alice" 1 none (delete_task "alice" 1 none dbW).2).1.success = false :=
  c8_delete_then_gone "alice" 1 dbW
    { id := 1, user_id := "alice", title := "pay rent", status := "pending",
      created_at := 0, completed_at := none, updated_at := 0 } (by decide) rfl rfl

/-- C10: a successful update_task changes only the task's title — the stored
row keeps id, user_id, status, created_at, completed_at, and updated_at (not
refreshed) — and every other task row is untouched. -/
theorem c10_update_only_title (uid title : String) (k : Nat) (db : DB) (t : Task)
    (hfind : db.tasks.find? (fun u => u.id == k) = some t)
    (hown : t.user_id = uid) :
    (update_task uid k title none db).1.success = true ∧
    ((update_task uid k title none db).2).tasks.find? (fun u => u.id == k) =
      some { id := t.id, user_id := t.user_id, title := title, status := t.status,
             created_at := t.created_at, completed_at := t.completed_at,
             updated_at := t.updated_at } ∧
    ∀ u ∈ db.tasks, u.id ≠ k → u ∈ ((update_task uid k title none db).2).tasks := by
  have hguard : (t.user_id != uid) = false := by simp [hown]
  have hp := List.find?_some hfind
  have hstep : update_task uid k title none db =
      ({ success := true,
         message := some ("Successfully updated task to '" ++ title ++ "'") },
       { db with tasks := updateFirst (fun u => u.id == k) (fun u => { u with title := title }) db.tasks }) := by
    simp only [update_task, hfind, hguard, Bool.false_eq_true, if_false]
  rw [hstep]
  refine ⟨rfl, ?_, ?_⟩
  · exact find?_updateFirst _ _ db.tasks t hfind hp
  · intro u hu hne
    exact mem_updateFirst_of_not _ _ db.tasks u hu (by simp [hne])

/-- Witness for C10: retitling alice's task 1 leaves every other field and
bob's row intact. -/
theorem c10_witness :
    (update_task "alice" 1 "pay rent friday" none dbW).1.success = true ∧
    ((update_task "alice" 1 "pay rent friday" none dbW).2).tasks.find?
        (fun u => u.id == 1) =
      some { id := 1, user_id := "alice", title := "pay rent friday",
             status := "pending", created_at := 0, completed_at := none,
             updated_at := 0 } ∧
    ∀ u ∈ dbW.tasks, u.id ≠ 1 →
      u ∈ ((update_task "alice" 1 "pay rent friday" none dbW).2).tasks :=
  c10_update_only_title "alice" "pay rent friday" 1 dbW
    { id := 1, user_id := "alice", title := "pay rent", status := "pending",
      created_at := 0, completed_at := none, updated_at := 0 } rfl rfl

/-- C9 (code bug): the title constraint declared on the model (non-empty,
at most 255 characters) is not enforced on the tool paths — SQLModel table
models skip field validation and update_task assigns the title directly — so
an empty title reaches persistent storage verbatim through both update_task
and add_task. This theorem evaluates the code at the failing input. -/
theorem c9_unvalidated_title_stored :
    (update_task "alice" 1 "" none dbW).1.success = true ∧
    ((update_task "alice" 1 "" none dbW).2).tasks.find? (fun u => u.id == 1) =
      some { id := 1, user_id := "alice", title := "", status := "pending",
             created_at := 0, completed_at := none, updated_at := 0 } ∧
    (add_task "alice" "" 7 none dbW).1.success = true ∧
    ∃ u ∈ ((add_task "alice" "" 7 none dbW).2).tasks, u.title = "" := by
  decide

end TodoApp
